import Mathlib

/-!
Shallow embedding of the `ox_plot` repository's two finance plotting modules
(`ox_plot/finance/barplot.py` and `ox_plot/finance/intraday.py`) and proofs of
the spec's claims about them.

Modelling conventions:
* A pandas `DataFrame` becomes `DFrame`: a named date index (`idxName`,
  integer day ordinals for the values) plus a list of column names and a list
  of rows, each row carrying its index value and its cells as rationals.
* Python floats are modelled as rationals; dates are modelled by their
  proleptic-Gregorian day ordinal (possibly with a fractional part for a time
  of day).
* External library calls (`DataFrame.truncate`, `rename`, `reset_index`,
  `resample(...).agg(...)`, `matplotlib.dates.date2num`, `date.toordinal`)
  are embedded by their documented semantics.
* Fallible Python code (exceptions: `AttributeError` from the bar-size
  dispatch, `NameError`/schema failures in mode inference, assertion errors)
  is embedded with `Option`, `none` standing for a raised exception.
* In-place mutation questions are settled over an explicit heap model
  (`List DFrame` with references as indices), mirroring the aliasing
  structure of the Python code line by line.
-/

/-- Python's `str.lower` restricted to the ASCII range, which is all the
source ever feeds it (bar-size tokens). -/
def String.lower (s : String) : String :=
  ⟨s.data.map Char.toLower⟩

/-- `item[0].upper() + item[1:]` from `prep_plot_data`: capitalize the first
character of a column name. -/
def capFirst (s : String) : String :=
  match s.data with
  | [] => s
  | c :: rest => ⟨c.toUpper :: rest⟩

/-- `matplotlib.dates.date2num` (matplotlib era of `matplotlib.finance`):
days since 0001-01-01 00:00 UTC plus one, so a pure date with no time of day
maps to exactly its proleptic-Gregorian ordinal, and a time of day adds the
day fraction.  Our date values already carry that representation. -/
def date2num (d : ℚ) : ℚ := d

/-- Python `date.toordinal()` (also `Timestamp.toordinal()`): the whole-day
proleptic-Gregorian ordinal, discarding any time-of-day fraction. -/
def toordinal (d : ℚ) : ℚ := ((⌊d⌋ : ℤ) : ℚ)

/-- A pandas DataFrame with a date index: the index name, the column names,
and the rows (index value paired with the cell values, one per column). -/
structure DFrame where
  idxName : String
  colNames : List String
  rows : List (Int × List ℚ)
deriving DecidableEq

/-- The empty frame, used as the default when dereferencing the heap model. -/
def dfrEmpty : DFrame := ⟨"", [], []⟩

/-- `DataFrame.truncate(before, after)`: slice off the rows of a (sorted)
index before `before` and after `after`; a `None` bound leaves that side
untouched.  Both bounds are inclusive. -/
def DFrame.truncate (df : DFrame) (before after : Option Int) : DFrame :=
  { df with rows :=
      (df.rows.dropWhile fun r =>
        match before with
        | some b => decide (r.1 < b)
        | none => false).takeWhile fun r =>
          match after with
          | some a => decide (r.1 ≤ a)
          | none => true }

/-- `DataFrame.rename(columns=...)`: rename every column. -/
def DFrame.renameCols (df : DFrame) (f : String → String) : DFrame :=
  { df with colNames := df.colNames.map f }

/-- `DataFrame.reset_index()`: drop the date index into an ordinary column
(placed first, under the index's name) and replace it with a plain range
index. -/
def DFrame.resetIndex (df : DFrame) : DFrame :=
  { idxName := "",
    colNames := df.idxName :: df.colNames,
    rows := df.rows.enum.map fun nr => ((nr.1 : Int), ((nr.2.1 : ℚ) :: nr.2.2)) }

/-- Column access (`getattr(data, field)` / `data[field]`): the cells under
the first column with the given name, or `none` (an `AttributeError`) when no
column has it. -/
def DFrame.getCol (df : DFrame) (name : String) : Option (List ℚ) :=
  if name ∈ df.colNames then
    some (df.rows.map fun r => r.2.getD (df.colNames.indexOf name) 0)
  else
    none

/-- Column assignment (`data.date = ...` / `data['date'] = ...`): overwrite
the first column with the given name, or append a new column when the name is
absent. -/
def DFrame.setCol (df : DFrame) (name : String) (vals : List ℚ) : DFrame :=
  if name ∈ df.colNames then
    { df with
      rows := df.rows.zipWith
          (fun r v => (r.1, r.2.set (df.colNames.indexOf name) v)) vals }
  else
    { df with
      colNames := df.colNames ++ [name],
      rows := df.rows.zipWith (fun r v => (r.1, r.2 ++ [v])) vals }

/-- Modelled from the spec: `infer_data_mode` is called by `prep_plot_data`
(barplot.py line 41) but its definition is absent from the sources.  Per the
spec, mode auto-detection inspects the column names for a mode-specific
marker column and signals an unsupported-schema error when the result is
ambiguous.  The mode-B (`"pion"`) marker is an `event_date` column; the
mode-A (`"pandas"`) marker is a `date` column (for these frames the date sits
in the index, so the index name counts as well). -/
def infer_data_mode (df : DFrame) : Option String :=
  let hasPion := df.colNames.contains "event_date"
  let hasPandas := df.colNames.contains "date" || df.idxName == "date"
  if hasPion && !hasPandas then some "pion"
  else if hasPandas && !hasPion then some "pandas"
  else none

/-- `mode = mode if mode is not None else infer_data_mode(orig_data)`. -/
def resolve_mode (orig : DFrame) : Option String → Option String
  | some m => some m
  | none => infer_data_mode orig

/-- The rename table built in the `pion` branch of `prep_plot_data`: every
column except `event_date` gets its first letter capitalized. -/
def pion_renames (col : String) : String :=
  if col = "event_date" then col else capFirst col

/-- `prep_plot_data(orig_data, start_end_date, mode)` from barplot.py:
resolve the mode, deep-copy, truncate to the inclusive date bounds, apply the
pion renames when in pion mode, reset the index, and convert the date field
to numbers (`date2num` in pandas mode, `toordinal` in pion mode); any other
mode trips the `assert mode == 'pion'`.  `none` models a raised exception. -/
def prep_plot_data (orig : DFrame) (start_end_date : Option Int × Option Int)
    (mode : Option String) : Option DFrame :=
  match resolve_mode orig mode with
  | none => none
  | some m =>
    let data0 := orig.truncate start_end_date.1 start_end_date.2
    let data1 := if m = "pion" then data0.renameCols pion_renames else data0
    let dateField := if m = "pion" then "event_date" else "date"
    let data2 := data1.resetIndex
    if m = "pandas" then
      match data2.getCol dateField with
      | some vs => some (data2.setCol "date" (vs.map date2num))
      | none => none
    else if m = "pion" then
      match data2.getCol dateField with
      | some vs => some (data2.setCol "date" (vs.map toordinal))
      | none => none
    else none

/-- Mode-A-only data preparation, written directly from the spec's mode-A
description: inclusive truncation, index reset, and `date2num` conversion of
the `date` column — with no mode dispatch, no schema inference and no mode-B
renaming.  Used to show `simple_pandas_plot` never exercises those paths. -/
def prep_pandas_branch (orig : DFrame) (start_end_date : Option Int × Option Int) :
    Option DFrame :=
  let data := (orig.truncate start_end_date.1 start_end_date.2).resetIndex
  match data.getCol "date" with
  | some vs => some (data.setCol "date" (vs.map date2num))
  | none => none

/-- The candlestick tuples `[tuple(x) for x in data[['date', 'open', 'high',
'low', 'close']].to_records(index=False)]`; `none` models the `KeyError`
when a column is missing. -/
def candles_of (data : DFrame) : Option (List (ℚ × ℚ × ℚ × ℚ × ℚ)) :=
  match data.getCol "date", data.getCol "open", data.getCol "high",
      data.getCol "low", data.getCol "close" with
  | some d, some o, some h, some l, some c => some (d.zip (o.zip (h.zip (l.zip c))))
  | _, _, _, _, _ => none

/-- The rendered figure: the candlestick series drawn into it and its title.
Axis decoration is plotting-library state outside the embedding. -/
structure Figure where
  candles : List (ℚ × ℚ × ℚ × ℚ × ℚ)
  suptitle : String
deriving DecidableEq

/-- The rendering tail of `simple_pandas_plot`: build the figure from the
prepared data, save it when an output file is given, and return it together
with the list of files written. -/
def simple_render (prepared : Option DFrame) (output_file : Option String)
    (mainTitle : String) : Option (Figure × List String) :=
  match prepared with
  | none => none
  | some data =>
    match candles_of data with
    | none => none
    | some cs =>
      some (⟨cs, mainTitle⟩,
        match output_file with
        | some f => [f]
        | none => [])

/-- `simple_pandas_plot(orig_data, output_file, mainTitle, start_end_date)`
from barplot.py: prepare the data with `mode='pandas'` and render.  The
result pairs the returned figure with the files written to disk. -/
def simple_pandas_plot (orig : DFrame) (output_file : Option String)
    (mainTitle : String) (start_end_date : Option Int × Option Int) :
    Option (Figure × List String) :=
  simple_render (prep_plot_data orig start_end_date (some "pandas"))
    output_file mainTitle

/-- One OHLCV record of an intraday series. -/
structure OHLCV where
  «open» : ℚ
  high : ℚ
  low : ℚ
  close : ℚ
  volume : ℚ
deriving DecidableEq

/-- The aggregation dictionary of `orig_data.resample(bsize).agg({'open':
'first', 'high': 'max', 'low': 'min', 'close': 'last', 'volume': 'sum'})`
as a two-row combiner: first open, max high, min low, last close, summed
volume. -/
def aggStep (a b : OHLCV) : OHLCV :=
  { «open» := a.«open»,
    high := max a.high b.high,
    low := min a.low b.low,
    close := b.close,
    volume := a.volume + b.volume }

/-- Aggregate one non-empty resampling bucket by folding `aggStep` over its
rows in time order. -/
def aggBucket (x : OHLCV) (xs : List OHLCV) : OHLCV :=
  xs.foldl aggStep x

/-- The rows of `rows` falling into the bucket numbered `k` of width `m`
minutes: those whose time (in minutes since the epoch) satisfies
`t / m = k`, in their original order. -/
def bucketRows (m : Nat) (rows : List (Nat × OHLCV)) (k : Nat) : List OHLCV :=
  (rows.filter fun r => r.1 / m == k).map Prod.snd

/-- `orig_data.resample(bsize).agg(...)`: group the rows into left-closed
buckets of `m` minutes, labelled by the bucket's start time, and aggregate
each occupied bucket with `aggBucket`. -/
def resampleAgg (m : Nat) (rows : List (Nat × OHLCV)) : List (Nat × OHLCV) :=
  ((rows.map fun r => r.1 / m).dedup).filterMap fun k =>
    match bucketRows m rows k with
    | [] => none
    | x :: xs => some (k * m, aggBucket x xs)

/-- The minute count of a pandas offset token of the `"<n>Min"` family
(case-insensitive), which is what `resample` is handed in `plot`. -/
def parse_freq_minutes (bsize : String) : Option Nat :=
  let cs := (bsize.lower).data
  let n := cs.length
  if cs.drop (n - 3) = ['m', 'i', 'n'] ∧ 3 ≤ n then
    let ds := cs.take (n - 3)
    if ds.all Char.isDigit then some (ds.foldl (fun a c => a * 10 + (c.toNat - 48)) 0)
    else none
  else none

/-- `matplotlib.dates.DateFormatter(fmt)`. -/
structure DateFormatterSpec where
  fmt : String
deriving DecidableEq

/-- `matplotlib.dates.MinuteLocator(byminute=..., interval=...)`; the bare
`MinuteLocator()` call leaves `byminute` as `None` and `interval` as 1. -/
structure MinuteLocatorSpec where
  byminute : Option (List Nat)
  interval : Nat
deriving DecidableEq

/-- `BSizeParams` from intraday.py: the parameter bundle adjusting a plot to
its bar size. -/
structure BSizeParams where
  bsize : String
  minor_loc : Option MinuteLocatorSpec
  major_loc : Option MinuteLocatorSpec
  width : ℚ
  formatter : DateFormatterSpec
deriving DecidableEq

/-- `BSizeParams.get_width(minutes) = minutes*.9*60./4.0/(3600.*6.5)`. -/
def BSizeParams.get_width (minutes : ℚ) : ℚ :=
  minutes * (9 / 10) * 60 / 4 / (3600 * (13 / 2))

/-- `BSizeParams.set_from_bsize_15min`. -/
def BSizeParams.set_from_bsize_15min (p : BSizeParams) : BSizeParams :=
  { p with
    width := BSizeParams.get_width 15,
    minor_loc := some ⟨none, 1⟩,
    major_loc := some ⟨some [0, 30], 1⟩,
    formatter := ⟨"%H:%M"⟩ }

/-- `BSizeParams.set_from_bsize_5min`. -/
def BSizeParams.set_from_bsize_5min (p : BSizeParams) : BSizeParams :=
  { p with
    width := BSizeParams.get_width 5,
    minor_loc := some ⟨none, 1⟩,
    major_loc := some ⟨some [0, 15, 30, 45], 1⟩,
    formatter := ⟨"%H:%M"⟩ }

/-- `BSizeParams.set_from_bsize_1min`. -/
def BSizeParams.set_from_bsize_1min (p : BSizeParams) : BSizeParams :=
  { p with
    width := BSizeParams.get_width 1,
    minor_loc := some ⟨none, 1⟩,
    major_loc := some ⟨some [0, 15, 30, 45], 1⟩,
    formatter := ⟨"%H:%M"⟩ }

/-- `BSizeParams.set_from_bsize`: dynamic dispatch on
`'set_from_bsize_' + bsize.lower()`; only the `15min`, `5min` and `1min`
methods exist, any other token raises `AttributeError` (`none`). -/
def BSizeParams.set_from_bsize (p : BSizeParams) (bsize : String) :
    Option BSizeParams :=
  if bsize.lower = "15min" then some p.set_from_bsize_15min
  else if bsize.lower = "5min" then some p.set_from_bsize_5min
  else if bsize.lower = "1min" then some p.set_from_bsize_1min
  else none

/-- `BSizeParams.__init__(bsize)`: record the token, install the defaults,
then run `set_from_bsize`; an unsupported token escapes as an exception
before any object is returned. -/
def BSizeParams.init (bsize : String) : Option BSizeParams :=
  BSizeParams.set_from_bsize
    { bsize := bsize,
      minor_loc := none,
      major_loc := none,
      width := 1,
      formatter := ⟨"%H:%M"⟩ }
    bsize

/-- The four plot-relevant components of a `BSizeParams` bundle (everything
but the stored token text). -/
def BSizeParams.bundle (p : BSizeParams) :
    ℚ × Option MinuteLocatorSpec × Option MinuteLocatorSpec × DateFormatterSpec :=
  (p.width, p.major_loc, p.minor_loc, p.formatter)

/-- `mdates.date2num` applied to a bucket timestamp measured in minutes
since the epoch: the day number with its fractional part. -/
def date2num_min (t : Nat) : ℚ :=
  (t : ℚ) / 1440

/-- `plot(orig_data, bsize, **pltargs)` from intraday.py: resample and
aggregate, attach the numeric date column, build the bar-size parameters
(failing on unsupported tokens), draw the candlesticks and return the
figure.  The function has no output-file argument and performs no save, so
the written-files component is always empty. -/
def plot (orig : List (Nat × OHLCV)) (bsize : String) :
    Option (Figure × List String) :=
  match parse_freq_minutes bsize with
  | none => none
  | some m =>
    let data := resampleAgg m orig
    match BSizeParams.init bsize with
    | none => none
    | some _p =>
      some (⟨data.map fun r =>
        (date2num_min r.1, r.2.«open», r.2.high, r.2.low, r.2.close), ""⟩, [])

/-- `prep_plot_data` replayed over an explicit object heap to settle the
frame-effect claim: frames live in a store, `orig_data` is the frame at
reference `r`, `data = orig_data.copy(deep=True)` allocates a fresh object,
the non-in-place `truncate` rebinds `data` to another fresh object, and the
`inplace=True` calls (`rename`, `reset_index`) and the column assignments
mutate the `data` object in place.  Returns the final heap and the
reference `data` holds. -/
def prep_plot_data_heap (h : List DFrame) (r : Nat)
    (start_end_date : Option Int × Option Int) (mode : Option String) :
    Option (List DFrame × Nat) :=
  let orig := h.getD r dfrEmpty
  match resolve_mode orig mode with
  | none => none
  | some m =>
    let n := h.length
    let h1 := h ++ [orig]
    let h2 := h1 ++ [(h1.getD n dfrEmpty).truncate start_end_date.1 start_end_date.2]
    let d := n + 1
    let h3 := if m = "pion" then h2.set d ((h2.getD d dfrEmpty).renameCols pion_renames) else h2
    let dateField := if m = "pion" then "event_date" else "date"
    let h4 := h3.set d ((h3.getD d dfrEmpty).resetIndex)
    if m = "pandas" then
      match (h4.getD d dfrEmpty).getCol dateField with
      | some vs => some (h4.set d ((h4.getD d dfrEmpty).setCol "date" (vs.map date2num)), d)
      | none => none
    else if m = "pion" then
      match (h4.getD d dfrEmpty).getCol dateField with
      | some vs => some (h4.set d ((h4.getD d dfrEmpty).setCol "date" (vs.map toordinal)), d)
      | none => none
    else none

/-- An intraday frame: timestamped OHLCV rows plus the `date` column that
`plot` attaches after resampling. -/
structure IFrame where
  rows : List (Nat × OHLCV)
  dateCol : Option (List ℚ)
deriving DecidableEq

/-- The empty intraday frame. -/
def ifrEmpty : IFrame := ⟨[], none⟩

/-- `plot` replayed over an explicit object heap: `orig_data.resample(
bsize).agg(...)` allocates a fresh frame that `data` is bound to, and
`data['date'] = mdates.date2num(...)` mutates only that fresh frame;
`BSizeParams(bsize)` can still fail afterwards.  Returns the final heap and
the reference `data` holds. -/
def plot_heap (h : List IFrame) (r : Nat) (bsize : String) :
    Option (List IFrame × Nat) :=
  match parse_freq_minutes bsize with
  | none => none
  | some m =>
    let orig := h.getD r ifrEmpty
    let n := h.length
    let h1 := h ++ [⟨resampleAgg m orig.rows, none⟩]
    let h2 := h1.set n
      ⟨(h1.getD n ifrEmpty).rows,
       some (((h1.getD n ifrEmpty).rows).map fun rr => date2num_min rr.1)⟩
    match BSizeParams.init bsize with
    | none => none
    | some _p => some (h2, n)

/-- A small concrete daily frame (mode-A shape: the date sits in an index
named `date`): one row. -/
def df0 : DFrame :=
  ⟨"date", ["open", "high", "low", "close", "volume"], [(10, [1, 2, 0, 3, 4])]⟩

/-- The figure `simple_pandas_plot` renders from `df0`. -/
def fig0 : Figure :=
  ⟨[((10 : ℚ), (1 : ℚ), (2 : ℚ), (0 : ℚ), (3 : ℚ))], ""⟩

/-- A concrete daily frame with three date-sorted rows, for exercising the
truncation bounds. -/
def df4 : DFrame :=
  ⟨"date", ["open", "high", "low", "close", "volume"],
   [(10, [1, 2, 0, 3, 4]), (11, [3, 5, 2, 4, 6]), (12, [4, 6, 3, 5, 7])]⟩

/-- A concrete mode-B frame: two rows, `event_date` in the last column. -/
def rows5 : List (Int × List ℚ) :=
  [(0, [10, 20, 5, 15, 100, 738000]), (1, [11, 21, 6, 16, 101, 738001])]

/-- A concrete intraday tick series: three one-minute bars, the first two
sharing the 5-minute bucket starting at minute 5, the third alone in the
bucket starting at minute 10. -/
def rows0 : List (Nat × OHLCV) :=
  [(5, ⟨1, 2, 0, 3, 4⟩), (6, ⟨3, 5, 2, 4, 6⟩), (12, ⟨4, 6, 3, 5, 7⟩)]

/-- The figure `plot` renders from `rows0` at `bsize = "5Min"`. -/
def figP : Figure :=
  ⟨[((5 : ℚ) / 1440, (1 : ℚ), (5 : ℚ), (0 : ℚ), (4 : ℚ)),
    ((10 : ℚ) / 1440, (4 : ℚ), (6 : ℚ), (3 : ℚ), (5 : ℚ))], ""⟩

/-- A frame carrying neither mode marker (no `date`, no `event_date`):
ambiguous for mode auto-detection. -/
def dfAmb : DFrame := ⟨"idx", ["open"], []⟩

/-- Membership in the inclusive `[before, after]` truncation window; an
omitted bound constrains nothing. -/
def truncKeep (before after : Option Int) (t : Int) : Bool :=
  (match before with
   | some b => decide (b ≤ t)
   | none => true)
    && (match after with
        | some a => decide (t ≤ a)
        | none => true)

/-- C1: for every supported bar-size token in {"1Min", "5Min", "15Min"},
constructing `BSizeParams` with that token sets the `width` field to
`get_width minutes` = `minutes*0.9*60/4.0/(3600*6.5)` with minutes 1, 5, 15
respectively. -/
theorem bsize_width_formula :
    ((BSizeParams.init "1Min").map BSizeParams.width = some (BSizeParams.get_width 1)
      ∧ BSizeParams.get_width 1 = 1 * (9 / 10) * 60 / 4 / (3600 * (13 / 2)))
    ∧ ((BSizeParams.init "5Min").map BSizeParams.width = some (BSizeParams.get_width 5)
      ∧ BSizeParams.get_width 5 = 5 * (9 / 10) * 60 / 4 / (3600 * (13 / 2)))
    ∧ ((BSizeParams.init "15Min").map BSizeParams.width = some (BSizeParams.get_width 15)
      ∧ BSizeParams.get_width 15 = 15 * (9 / 10) * 60 / 4 / (3600 * (13 / 2))) :=
  ⟨⟨rfl, rfl⟩, ⟨rfl, rfl⟩, ⟨rfl, rfl⟩⟩

/-- C2: constructing `BSizeParams` with any token outside the supported set
(up to case) raises immediately (`none`) instead of returning a bundle. -/
theorem unsupported_bsize_errors (bsize : String)
    (h : bsize.lower ∉ (["1min", "5min", "15min"] : List String)) :
    BSizeParams.init bsize = none := by
  have h1 : ¬bsize.lower = "1min" := fun hh => h (by simp [hh])
  have h5 : ¬bsize.lower = "5min" := fun hh => h (by simp [hh])
  have h15 : ¬bsize.lower = "15min" := fun hh => h (by simp [hh])
  simp [BSizeParams.init, BSizeParams.set_from_bsize, h1, h5, h15]

/-- Witness for C2 at the unsupported token "2Min". -/
theorem unsupported_bsize_errors_witness :
    ("2Min".lower ∉ (["1min", "5min", "15min"] : List String))
      ∧ BSizeParams.init "2Min" = none :=
  ⟨by decide, unsupported_bsize_errors "2Min" (by decide)⟩

/-- C7: the bar-size selector is case-insensitive — two tokens agreeing up to
letter case produce the same width, major locator, minor locator and label
format. -/
theorem bsize_case_insensitive (s t : String) (h : s.lower = t.lower) :
    (BSizeParams.init s).map BSizeParams.bundle
      = (BSizeParams.init t).map BSizeParams.bundle := by
  unfold BSizeParams.init BSizeParams.set_from_bsize
  rw [h]
  split_ifs <;> rfl

/-- Witness for C7 at the pair "5MIN" / "5Min". -/
theorem bsize_case_insensitive_witness :
    "5MIN".lower = "5Min".lower
      ∧ (BSizeParams.init "5MIN").map BSizeParams.bundle
          = (BSizeParams.init "5Min").map BSizeParams.bundle :=
  ⟨rfl, bsize_case_insensitive "5MIN" "5Min" rfl⟩

/-- C3: with `mode=None`, `prep_plot_data` auto-detects the mode by
inspecting the column names via `infer_data_mode` (behaving exactly as if the
detected mode had been passed), and fails with the unsupported-schema error
when the marker columns are ambiguous (both markers present, or neither). -/
theorem mode_auto_detect (orig : DFrame) (se : Option Int × Option Int) :
    (∀ m, infer_data_mode orig = some m →
      prep_plot_data orig se none = prep_plot_data orig se (some m))
    ∧ (orig.colNames.contains "event_date"
          = (orig.colNames.contains "date" || orig.idxName == "date") →
      prep_plot_data orig se none = none) := by
  constructor
  · intro m hm
    unfold prep_plot_data resolve_mode
    rw [hm]
  · intro hamb
    have hnone : infer_data_mode orig = none := by
      unfold infer_data_mode
      rw [hamb]
      cases orig.colNames.contains "date" || orig.idxName == "date" <;> simp
    unfold prep_plot_data resolve_mode
    rw [hnone]

/-- Witness for C3 at a frame with neither marker column. -/
theorem mode_auto_detect_witness :
    (dfAmb.colNames.contains "event_date"
        = (dfAmb.colNames.contains "date" || dfAmb.idxName == "date"))
      ∧ prep_plot_data dfAmb (none, none) none = none :=
  ⟨by decide, (mode_auto_detect dfAmb (none, none)).2 (by decide)⟩

/-- C10: `simple_pandas_plot` always hands the data preparer `mode="pandas"`
— its result is the render of `prep_plot_data orig se (some "pandas")` — and
that call is exactly the mode-A-only pipeline: mode auto-detection and the
mode-B ("pion") normalization are never exercised through this entry
point. -/
theorem simple_pandas_plot_fixed_mode (orig : DFrame) (output_file : Option String)
    (mainTitle : String) (se : Option Int × Option Int) :
    simple_pandas_plot orig output_file mainTitle se
        = simple_render (prep_plot_data orig se (some "pandas")) output_file mainTitle
      ∧ prep_plot_data orig se (some "pandas") = prep_pandas_branch orig se :=
  ⟨rfl, rfl⟩

/-- Counterexample for C8 as stated: the intraday entry point `plot` has no
output-file argument at all — no call to it ever records a saved file, so it
does not "optionally save the figure to a caller-supplied output file
path". -/
theorem intraday_plot_cannot_save :
    ¬∃ (orig : List (Nat × OHLCV)) (bsize : String) (fig : Figure)
        (files : List String),
      plot orig bsize = some (fig, files) ∧ files ≠ [] := by
  rintro ⟨orig, bsize, fig, files, h1, h2⟩
  unfold plot at h1
  cases hp : parse_freq_minutes bsize with
  | none => rw [hp] at h1; exact Option.noConfusion h1
  | some m =>
    rw [hp] at h1
    cases hb : BSizeParams.init bsize with
    | none => rw [hb] at h1; exact Option.noConfusion h1
    | some p =>
      rw [hb] at h1
      exact h2 (congrArg Prod.snd (Option.some.inj h1)).symm

/-- C8 amended: both entry points return the rendered figure;
`simple_pandas_plot` optionally saves it to a caller-supplied output path
(writing nothing when no path is given), while the intraday `plot` accepts
no output path and never writes a file. -/
theorem entry_points_save_semantics :
    (∀ (orig : DFrame) (mainTitle : String) (se : Option Int × Option Int)
        (fig : Figure) (files : List String),
      simple_pandas_plot orig none mainTitle se = some (fig, files) → files = [])
    ∧ (∀ (orig : DFrame) (mainTitle : String) (se : Option Int × Option Int)
        (p : String) (fig : Figure) (files : List String),
      simple_pandas_plot orig (some p) mainTitle se = some (fig, files) → files = [p])
    ∧ (∀ (rows : List (Nat × OHLCV)) (bsize : String) (fig : Figure)
        (files : List String),
      plot rows bsize = some (fig, files) → files = []) := by
  refine ⟨?_, ?_, ?_⟩
  · intro orig mainTitle se fig files h
    unfold simple_pandas_plot simple_render at h
    split at h
    · exact Option.noConfusion h
    · split at h
      · exact Option.noConfusion h
      · exact (congrArg Prod.snd (Option.some.inj h)).symm
  · intro orig mainTitle se p fig files h
    unfold simple_pandas_plot simple_render at h
    split at h
    · exact Option.noConfusion h
    · split at h
      · exact Option.noConfusion h
      · exact (congrArg Prod.snd (Option.some.inj h)).symm
  · intro rows bsize fig files h
    unfold plot at h
    split at h
    · exact Option.noConfusion h
    · split at h
      · exact Option.noConfusion h
      · exact (congrArg Prod.snd (Option.some.inj h)).symm

/-- Witness for the amended C8: a concrete save through `simple_pandas_plot`
and a concrete no-write run of the intraday `plot`. -/
theorem entry_points_save_semantics_witness :
    (simple_pandas_plot df0 (some "out.png") "" (none, none) = some (fig0, ["out.png"])
      ∧ ["out.png"] = (["out.png"] : List String))
    ∧ (plot rows0 "5Min" = some (figP, []) ∧ ([] : List String) = []) :=
  ⟨⟨by decide,
    entry_points_save_semantics.2.1 df0 "" (none, none) "out.png" fig0 ["out.png"] (by decide)⟩,
   ⟨rfl, entry_points_save_semantics.2.2 rows0 "5Min" figP [] rfl⟩⟩

/-- Dropping by an always-false predicate keeps the whole list. -/
theorem dropWhile_const_false (l : List α) :
    l.dropWhile (fun _ => false) = l := by
  cases l <;> simp [List.dropWhile_cons]

/-- Taking by an always-true predicate keeps the whole list. -/
theorem takeWhile_const_true (l : List α) :
    l.takeWhile (fun _ => true) = l := by
  induction l with
  | nil => rfl
  | cons x xs ih => simp [List.takeWhile_cons, ih]

/-- On an ascending index, dropping the prefix below `b` is exactly
filtering to the indices at least `b`. -/
theorem dropWhile_lt_eq_filter (b : Int) :
    ∀ l : List (Int × List ℚ), l.Pairwise (fun p q => p.1 ≤ q.1) →
      l.dropWhile (fun r => decide (r.1 < b))
        = l.filter (fun r => decide (b ≤ r.1)) := by
  intro l
  induction l with
  | nil => intro _; rfl
  | cons x xs ih =>
    intro hp
    obtain ⟨hx, hxs⟩ := List.pairwise_cons.mp hp
    by_cases hb : x.1 < b
    · rw [List.dropWhile_cons_of_pos (by simpa using hb),
        List.filter_cons_of_neg (by simpa using Int.not_le.mpr hb)]
      exact ih hxs
    · rw [List.dropWhile_cons_of_neg (by simpa using hb),
        List.filter_cons_of_pos (by simpa using Int.not_lt.mp hb)]
      congr 1
      refine (List.filter_eq_self.mpr fun a ha => ?_).symm
      exact decide_eq_true (le_trans (Int.not_lt.mp hb) (hx a ha))

/-- On an ascending index, taking the prefix up to `a` is exactly filtering
to the indices at most `a`. -/
theorem takeWhile_le_eq_filter (a : Int) :
    ∀ l : List (Int × List ℚ), l.Pairwise (fun p q => p.1 ≤ q.1) →
      l.takeWhile (fun r => decide (r.1 ≤ a))
        = l.filter (fun r => decide (r.1 ≤ a)) := by
  intro l
  induction l with
  | nil => intro _; rfl
  | cons x xs ih =>
    intro hp
    obtain ⟨hx, hxs⟩ := List.pairwise_cons.mp hp
    by_cases ha : x.1 ≤ a
    · rw [List.takeWhile_cons_of_pos (by simpa using ha),
        List.filter_cons_of_pos (by simpa using ha)]
      congr 1
      exact ih hxs
    · rw [List.takeWhile_cons_of_neg (by simpa using ha),
        List.filter_cons_of_neg (by simpa using ha)]
      refine (List.filter_eq_nil_iff.mpr fun y hy => ?_).symm
      simpa using fun hya => ha (le_trans (hx y hy) hya)

/-- `setCol` with value lists of matching length preserves the row count. -/
theorem length_rows_setCol (df : DFrame) (name : String) (vals : List ℚ)
    (h : vals.length = df.rows.length) :
    (df.setCol name vals).rows.length = df.rows.length := by
  unfold DFrame.setCol
  split <;> simp [List.length_zipWith, h]

/-- `reset_index` preserves the row count. -/
theorem length_rows_resetIndex (df : DFrame) :
    df.resetIndex.rows.length = df.rows.length := by
  simp [DFrame.resetIndex, List.enum_length]

/-- A successfully fetched column has one value per row. -/
theorem getCol_length (df : DFrame) (name : String) (vs : List ℚ)
    (h : df.getCol name = some vs) : vs.length = df.rows.length := by
  unfold DFrame.getCol at h
  split at h
  · cases h
    simp
  · exact Option.noConfusion h

/-- C4: with a date-sorted index, `prep_plot_data` keeps exactly the rows
whose index dates lie in the inclusive window `[start, end]`; an omitted
bound drops nothing on that side.  The truncation step equals the inclusive
filter, and every successful run of the preparer returns exactly one output
row per kept input row. -/
theorem truncate_keeps_inclusive_range (orig : DFrame) (b a : Option Int)
    (hs : orig.rows.Pairwise (fun p q => p.1 ≤ q.1)) :
    (orig.truncate b a).rows = orig.rows.filter (fun r => truncKeep b a r.1)
      ∧ ∀ (mode : Option String) (out : DFrame),
          prep_plot_data orig (b, a) mode = some out →
            out.rows.length
              = (orig.rows.filter (fun r => truncKeep b a r.1)).length := by
  have h1 : (orig.truncate b a).rows = orig.rows.filter (fun r => truncKeep b a r.1) := by
    cases b with
    | none =>
      cases a with
      | none =>
        show (orig.rows.dropWhile (fun _ => false)).takeWhile (fun _ => true)
            = orig.rows.filter (fun _ => true)
        rw [dropWhile_const_false, takeWhile_const_true]
        exact (List.filter_eq_self.mpr fun _ _ => rfl).symm
      | some y =>
        show (orig.rows.dropWhile (fun _ => false)).takeWhile (fun r => decide (r.1 ≤ y))
            = orig.rows.filter (fun r => decide (r.1 ≤ y))
        rw [dropWhile_const_false]
        exact takeWhile_le_eq_filter y orig.rows hs
    | some x =>
      cases a with
      | none =>
        show (orig.rows.dropWhile (fun r => decide (r.1 < x))).takeWhile (fun _ => true)
            = orig.rows.filter (fun r => decide (x ≤ r.1) && true)
        rw [takeWhile_const_true, dropWhile_lt_eq_filter x orig.rows hs]
        exact List.filter_congr fun r _ => by simp
      | some y =>
        show (orig.rows.dropWhile (fun r => decide (r.1 < x))).takeWhile
              (fun r => decide (r.1 ≤ y))
            = orig.rows.filter (fun r => decide (x ≤ r.1) && decide (r.1 ≤ y))
        rw [dropWhile_lt_eq_filter x orig.rows hs,
          takeWhile_le_eq_filter y _ (hs.filter _), List.filter_filter]
        exact List.filter_congr fun r _ => Bool.and_comm _ _
  refine ⟨h1, ?_⟩
  intro mode out h
  simp only [prep_plot_data] at h
  split at h
  · exact Option.noConfusion h
  · rename_i m hm
    split at h
    · rename_i hpan
      have hnp : ¬m = "pion" := by rw [hpan]; decide
      simp only [if_neg hnp] at h
      split at h
      · rename_i vs heq
        have hout := (Option.some.inj h).symm
        subst hout
        rw [length_rows_setCol _ _ _
            (by rw [List.length_map]; exact getCol_length _ _ _ heq),
          length_rows_resetIndex, h1]
      · exact Option.noConfusion h
    · rename_i hnpan
      split at h
      · rename_i hpion
        split at h
        · rename_i vs heq
          have hout := (Option.some.inj h).symm
          subst hout
          rw [length_rows_setCol _ _ _
              (by rw [List.length_map]; exact getCol_length _ _ _ heq),
            length_rows_resetIndex]
          have hrn : ((orig.truncate b a).renameCols pion_renames).rows
              = (orig.truncate b a).rows := rfl
          rw [hrn, h1]
        · exact Option.noConfusion h
      · exact Option.noConfusion h

/-- Witness for C4 at a concrete three-row frame and the window [11, 12]. -/
theorem truncate_keeps_inclusive_range_witness :
    df4.rows.Pairwise (fun p q => p.1 ≤ q.1)
      ∧ (df4.truncate (some 11) (some 12)).rows
          = df4.rows.filter (fun r => truncKeep (some 11) (some 12) r.1) :=
  ⟨by decide, (truncate_keeps_inclusive_range df4 (some 11) (some 12) (by decide)).1⟩

/-- The aggregated open of a bucket is the first row's open. -/
theorem aggBucket_open : ∀ (xs : List OHLCV) (x : OHLCV),
    (aggBucket x xs).«open» = x.«open» := by
  intro xs
  induction xs with
  | nil => intro x; rfl
  | cons y ys ih => intro x; exact (ih (aggStep x y)).trans rfl

/-- The aggregated close of a bucket is the last row's close. -/
theorem aggBucket_close : ∀ (xs : List OHLCV) (x : OHLCV),
    (aggBucket x xs).close = (xs.getLastD x).close := by
  intro xs
  induction xs with
  | nil => intro x; rfl
  | cons y ys ih =>
    intro x
    have hagg : aggBucket x (y :: ys) = aggBucket (aggStep x y) ys := rfl
    rw [hagg, ih (aggStep x y)]
    cases ys with
    | nil => rfl
    | cons z zs => rw [List.getLastD_cons, List.getLastD_cons, List.getLastD_cons]

/-- The aggregated high of a bucket is one of the bucket's highs. -/
theorem aggBucket_high_mem : ∀ (xs : List OHLCV) (x : OHLCV),
    (aggBucket x xs).high ∈ (x :: xs).map OHLCV.high := by
  intro xs
  induction xs with
  | nil => intro x; simp [aggBucket]
  | cons y ys ih =>
    intro x
    have h := ih (aggStep x y)
    have hagg : aggBucket x (y :: ys) = aggBucket (aggStep x y) ys := rfl
    rw [List.map_cons] at h
    rw [hagg, List.map_cons, List.map_cons]
    rcases List.mem_cons.mp h with h1 | h1
    · rcases max_choice x.high y.high with hm | hm
      · exact List.mem_cons.mpr (Or.inl (by rw [h1]; exact hm))
      · exact List.mem_cons.mpr (Or.inr (List.mem_cons.mpr (Or.inl (by rw [h1]; exact hm))))
    · exact List.mem_cons.mpr (Or.inr (List.mem_cons.mpr (Or.inr h1)))

/-- The aggregated high of a bucket bounds every high in the bucket. -/
theorem aggBucket_high_ub : ∀ (xs : List OHLCV) (x : OHLCV) (v : ℚ),
    v ∈ (x :: xs).map OHLCV.high → v ≤ (aggBucket x xs).high := by
  intro xs
  induction xs with
  | nil =>
    intro x v hv
    simp only [List.map_cons, List.map_nil, List.mem_cons, List.not_mem_nil,
      or_false] at hv
    exact le_of_eq hv
  | cons y ys ih =>
    intro x v hv
    have hagg : aggBucket x (y :: ys) = aggBucket (aggStep x y) ys := rfl
    rw [hagg]
    have hstep : (aggStep x y).high ≤ (aggBucket (aggStep x y) ys).high :=
      ih (aggStep x y) _ (by rw [List.map_cons]; exact List.mem_cons_self _ _)
    rw [List.map_cons, List.map_cons] at hv
    rcases List.mem_cons.mp hv with h1 | h1
    · calc v = x.high := h1
        _ ≤ max x.high y.high := le_max_left _ _
        _ ≤ _ := hstep
    · rcases List.mem_cons.mp h1 with h2 | h2
      · calc v = y.high := h2
          _ ≤ max x.high y.high := le_max_right _ _
          _ ≤ _ := hstep
      · exact ih (aggStep x y) v (by rw [List.map_cons]; exact List.mem_cons.mpr (Or.inr h2))

/-- The aggregated low of a bucket is one of the bucket's lows. -/
theorem aggBucket_low_mem : ∀ (xs : List OHLCV) (x : OHLCV),
    (aggBucket x xs).low ∈ (x :: xs).map OHLCV.low := by
  intro xs
  induction xs with
  | nil => intro x; simp [aggBucket]
  | cons y ys ih =>
    intro x
    have h := ih (aggStep x y)
    have hagg : aggBucket x (y :: ys) = aggBucket (aggStep x y) ys := rfl
    rw [List.map_cons] at h
    rw [hagg, List.map_cons, List.map_cons]
    rcases List.mem_cons.mp h with h1 | h1
    · rcases min_choice x.low y.low with hm | hm
      · exact List.mem_cons.mpr (Or.inl (by rw [h1]; exact hm))
      · exact List.mem_cons.mpr (Or.inr (List.mem_cons.mpr (Or.inl (by rw [h1]; exact hm))))
    · exact List.mem_cons.mpr (Or.inr (List.mem_cons.mpr (Or.inr h1)))

/-- The aggregated low of a bucket is below every low in the bucket. -/
theorem aggBucket_low_lb : ∀ (xs : List OHLCV) (x : OHLCV) (v : ℚ),
    v ∈ (x :: xs).map OHLCV.low → (aggBucket x xs).low ≤ v := by
  intro xs
  induction xs with
  | nil =>
    intro x v hv
    simp only [List.map_cons, List.map_nil, List.mem_cons, List.not_mem_nil,
      or_false] at hv
    exact le_of_eq hv.symm
  | cons y ys ih =>
    intro x v hv
    have hagg : aggBucket x (y :: ys) = aggBucket (aggStep x y) ys := rfl
    rw [hagg]
    have hstep : (aggBucket (aggStep x y) ys).low ≤ (aggStep x y).low :=
      ih (aggStep x y) _ (by rw [List.map_cons]; exact List.mem_cons_self _ _)
    rw [List.map_cons, List.map_cons] at hv
    rcases List.mem_cons.mp hv with h1 | h1
    · calc (aggBucket (aggStep x y) ys).low ≤ min x.low y.low := hstep
        _ ≤ x.low := min_le_left _ _
        _ = v := h1.symm
    · rcases List.mem_cons.mp h1 with h2 | h2
      · calc (aggBucket (aggStep x y) ys).low ≤ min x.low y.low := hstep
          _ ≤ y.low := min_le_right _ _
          _ = v := h2.symm
      · exact ih (aggStep x y) v (by rw [List.map_cons]; exact List.mem_cons.mpr (Or.inr h2))

/-- The aggregated volume of a bucket is the sum of the bucket's volumes. -/
theorem aggBucket_volume : ∀ (xs : List OHLCV) (x : OHLCV),
    (aggBucket x xs).volume = ((x :: xs).map OHLCV.volume).sum := by
  intro xs
  induction xs with
  | nil => intro x; simp [aggBucket]
  | cons y ys ih =>
    intro x
    have hagg : aggBucket x (y :: ys) = aggBucket (aggStep x y) ys := rfl
    rw [hagg, ih (aggStep x y)]
    simp [aggStep, add_assoc]

/-- An occupied bucket contributes its aggregate, labelled by the bucket's
start time, to the resampled series. -/
theorem resampleAgg_mem (m : Nat) (rows : List (Nat × OHLCV)) (k : Nat)
    (x : OHLCV) (xs : List OHLCV) (hb : bucketRows m rows k = x :: xs) :
    (k * m, aggBucket x xs) ∈ resampleAgg m rows := by
  unfold resampleAgg
  refine List.mem_filterMap.mpr ⟨k, ?_, ?_⟩
  · have hx : x ∈ bucketRows m rows k := by
      rw [hb]; exact List.mem_cons_self _ _
    unfold bucketRows at hx
    obtain ⟨r, hr, _⟩ := List.mem_map.mp hx
    rw [List.mem_dedup]
    exact List.mem_map.mpr ⟨r, (List.mem_filter.mp hr).1,
      by simpa using (List.mem_filter.mp hr).2⟩
  · rw [hb]

/-- C6: the intraday plotter's resampling aggregates every occupied
target-size bucket with open = first value, high = maximum, low = minimum,
close = last value, and volume = sum of the bucket's rows. -/
theorem resample_agg_bucket_spec (m : Nat) (rows : List (Nat × OHLCV)) (k : Nat)
    (x : OHLCV) (xs : List OHLCV) (hb : bucketRows m rows k = x :: xs) :
    ∃ agg, (k * m, agg) ∈ resampleAgg m rows
      ∧ agg.«open» = x.«open»
      ∧ agg.close = ((x :: xs).getLast (List.cons_ne_nil x xs)).close
      ∧ agg.high ∈ (x :: xs).map OHLCV.high
      ∧ (∀ v ∈ (x :: xs).map OHLCV.high, v ≤ agg.high)
      ∧ agg.low ∈ (x :: xs).map OHLCV.low
      ∧ (∀ v ∈ (x :: xs).map OHLCV.low, agg.low ≤ v)
      ∧ agg.volume = ((x :: xs).map OHLCV.volume).sum := by
  refine ⟨aggBucket x xs, resampleAgg_mem m rows k x xs hb, aggBucket_open xs x,
    ?_, aggBucket_high_mem xs x, aggBucket_high_ub xs x, aggBucket_low_mem xs x,
    aggBucket_low_lb xs x, aggBucket_volume xs x⟩
  rw [List.getLast_eq_getLastD]
  exact aggBucket_close xs x

/-- Witness for C6: in `rows0` at bar size 5, the bucket starting at minute 5
holds the first two ticks. -/
theorem resample_agg_bucket_spec_witness :
    bucketRows 5 rows0 1 = (⟨1, 2, 0, 3, 4⟩ : OHLCV) :: [(⟨3, 5, 2, 4, 6⟩ : OHLCV)]
      ∧ ∃ agg, (1 * 5, agg) ∈ resampleAgg 5 rows0
          ∧ agg.«open» = (⟨1, 2, 0, 3, 4⟩ : OHLCV).«open»
          ∧ agg.close = (((⟨1, 2, 0, 3, 4⟩ : OHLCV) :: [(⟨3, 5, 2, 4, 6⟩ : OHLCV)]).getLast
              (List.cons_ne_nil _ _)).close
          ∧ agg.high ∈ ((⟨1, 2, 0, 3, 4⟩ : OHLCV) :: [(⟨3, 5, 2, 4, 6⟩ : OHLCV)]).map OHLCV.high
          ∧ (∀ v ∈ ((⟨1, 2, 0, 3, 4⟩ : OHLCV) :: [(⟨3, 5, 2, 4, 6⟩ : OHLCV)]).map OHLCV.high,
              v ≤ agg.high)
          ∧ agg.low ∈ ((⟨1, 2, 0, 3, 4⟩ : OHLCV) :: [(⟨3, 5, 2, 4, 6⟩ : OHLCV)]).map OHLCV.low
          ∧ (∀ v ∈ ((⟨1, 2, 0, 3, 4⟩ : OHLCV) :: [(⟨3, 5, 2, 4, 6⟩ : OHLCV)]).map OHLCV.low,
              agg.low ≤ v)
          ∧ agg.volume = (((⟨1, 2, 0, 3, 4⟩ : OHLCV) :: [(⟨3, 5, 2, 4, 6⟩ : OHLCV)]).map
              OHLCV.volume).sum :=
  ⟨by decide, resample_agg_bucket_spec 5 rows0 1 _ _ (by decide)⟩

/-- Truncating with both bounds omitted changes nothing. -/
theorem truncate_none_none (df : DFrame) : df.truncate none none = df := by
  cases df with
  | mk i c r =>
    show DFrame.mk i c ((r.dropWhile fun _ => false).takeWhile fun _ => true) = ⟨i, c, r⟩
    rw [dropWhile_const_false, takeWhile_const_true]

/-- Reading just past the end of a six-cell row extended by one value gives
that value. -/
theorem getD_append_singleton (l : List ℚ) (v : ℚ) (h : l.length = 6) :
    (l ++ [v]).getD 6 0 = v := by
  rw [List.getD_eq_getElem?_getD, ← h, List.getElem?_concat_length]
  rfl

/-- After the index reset, appending the ordinal of the seventh cell (the
`event_date`) to each row and reading it back recovers exactly the ordinals
of the original `event_date` cells. -/
theorem pion_date_cells : ∀ (rows : List (Int × List ℚ)) (n : Nat),
    (∀ r ∈ rows, r.2.length = 6) →
    ((rows.enumFrom n).map fun nr => ((nr.1 : Int), ((nr.2.1 : ℚ) :: nr.2.2))).map
        (fun r2 => (r2.2 ++ [toordinal (r2.2.getD 6 0)]).getD 7 0)
      = rows.map fun r => toordinal (r.2.getD 5 0) := by
  intro rows
  induction rows with
  | nil => intro n _; rfl
  | cons r rs ih =>
    intro n hlen
    rw [List.enumFrom_cons, List.map_cons, List.map_cons, List.map_cons]
    congr 1
    · have h6 : ((r.1 : ℚ) :: r.2).getD 6 0 = r.2.getD 5 0 := rfl
      rw [h6, List.cons_append]
      have h7 : ((r.1 : ℚ) :: (r.2 ++ [toordinal (r.2.getD 5 0)])).getD 7 0
          = (r.2 ++ [toordinal (r.2.getD 5 0)]).getD 6 0 := rfl
      rw [h7]
      exact getD_append_singleton _ _ (hlen r (List.mem_cons_self _ _))
    · exact ih (n + 1) fun q hq => hlen q (List.mem_cons.mpr (Or.inr hq))

/-- C5: in "pion" mode, a mode-B table with the lower-case columns
{open, high, low, close, volume} and an `event_date` column is normalized by
capitalizing the first letter of every column except `event_date`, and the
produced `date` column holds the ordinal-day numbers (`toordinal`) of the
`event_date` values. -/
theorem pion_mode_normalization (idxName : String) (rows : List (Int × List ℚ))
    (hIdx1 : idxName ≠ "date") (hIdx2 : idxName ≠ "event_date")
    (hlen : ∀ r ∈ rows, r.2.length = 6) :
    ∃ out, prep_plot_data
        ⟨idxName, ["open", "high", "low", "close", "volume", "event_date"], rows⟩
        (none, none) (some "pion") = some out
      ∧ out.colNames
          = idxName :: ["Open", "High", "Low", "Close", "Volume", "event_date", "date"]
      ∧ out.getCol "date" = some (rows.map fun r => toordinal (r.2.getD 5 0)) := by
  have hmemE : "event_date"
      ∈ idxName :: ["Open", "High", "Low", "Close", "Volume", "event_date"] :=
    List.mem_cons.mpr (Or.inr (by decide))
  have hmemD : ¬"date"
      ∈ idxName :: ["Open", "High", "Low", "Close", "Volume", "event_date"] := by
    intro hc
    rcases List.mem_cons.mp hc with h | h
    · exact hIdx1 h.symm
    · exact absurd h (by decide)
  have hmemD7 : "date"
      ∈ idxName :: ["Open", "High", "Low", "Close", "Volume", "event_date", "date"] :=
    List.mem_cons.mpr (Or.inr (by decide))
  have hget : (⟨"", idxName :: ["Open", "High", "Low", "Close", "Volume", "event_date"],
        rows.enum.map fun nr => ((nr.1 : Int), ((nr.2.1 : ℚ) :: nr.2.2))⟩ : DFrame).getCol
          "event_date"
      = some ((rows.enum.map fun nr => ((nr.1 : Int), ((nr.2.1 : ℚ) :: nr.2.2))).map
          fun r => r.2.getD 6 0) := by
    simp only [DFrame.getCol]
    rw [if_pos hmemE]
    simp only [List.indexOf_cons_ne _ hIdx2]
    rfl
  have hset : (⟨"", idxName :: ["Open", "High", "Low", "Close", "Volume", "event_date"],
        rows.enum.map fun nr => ((nr.1 : Int), ((nr.2.1 : ℚ) :: nr.2.2))⟩ : DFrame).setCol
          "date"
          (((rows.enum.map fun nr => ((nr.1 : Int), ((nr.2.1 : ℚ) :: nr.2.2))).map
            fun r => r.2.getD 6 0).map toordinal)
      = ⟨"", idxName :: ["Open", "High", "Low", "Close", "Volume", "event_date", "date"],
          (rows.enum.map fun nr => ((nr.1 : Int), ((nr.2.1 : ℚ) :: nr.2.2))).zipWith
            (fun r v => (r.1, r.2 ++ [v]))
            (((rows.enum.map fun nr => ((nr.1 : Int), ((nr.2.1 : ℚ) :: nr.2.2))).map
              fun r => r.2.getD 6 0).map toordinal)⟩ := by
    simp only [DFrame.setCol]
    rw [if_neg hmemD]
    rfl
  refine ⟨⟨"", idxName :: ["Open", "High", "Low", "Close", "Volume", "event_date", "date"],
      (rows.enum.map fun nr => ((nr.1 : Int), ((nr.2.1 : ℚ) :: nr.2.2))).zipWith
        (fun r v => (r.1, r.2 ++ [v]))
        (((rows.enum.map fun nr => ((nr.1 : Int), ((nr.2.1 : ℚ) :: nr.2.2))).map
          fun r => r.2.getD 6 0).map toordinal)⟩, ?_, ?_, ?_⟩
  · have hstep1 : prep_plot_data
        ⟨idxName, ["open", "high", "low", "close", "volume", "event_date"], rows⟩
        (none, none) (some "pion")
        = (match (⟨"", idxName :: ["Open", "High", "Low", "Close", "Volume", "event_date"],
            ((rows.dropWhile fun _ => false).takeWhile fun _ => true).enum.map
              fun nr => ((nr.1 : Int), ((nr.2.1 : ℚ) :: nr.2.2))⟩ : DFrame).getCol
                "event_date" with
          | some vs =>
            some ((⟨"", idxName :: ["Open", "High", "Low", "Close", "Volume", "event_date"],
              ((rows.dropWhile fun _ => false).takeWhile fun _ => true).enum.map
                fun nr => ((nr.1 : Int), ((nr.2.1 : ℚ) :: nr.2.2))⟩ : DFrame).setCol "date"
                (vs.map toordinal))
          | none => none) := rfl
    rw [hstep1]
    simp only [dropWhile_const_false, takeWhile_const_true]
    rw [hget]
    show some ((⟨"", idxName :: ["Open", "High", "Low", "Close", "Volume", "event_date"],
        rows.enum.map fun nr => ((nr.1 : Int), ((nr.2.1 : ℚ) :: nr.2.2))⟩ : DFrame).setCol
          "date"
          (((rows.enum.map fun nr => ((nr.1 : Int), ((nr.2.1 : ℚ) :: nr.2.2))).map
            fun r => r.2.getD 6 0).map toordinal)) = _
    rw [hset]
  · rfl
  · have hgetdate : (⟨"",
        idxName :: ["Open", "High", "Low", "Close", "Volume", "event_date", "date"],
        (rows.enum.map fun nr => ((nr.1 : Int), ((nr.2.1 : ℚ) :: nr.2.2))).zipWith
          (fun r v => (r.1, r.2 ++ [v]))
          (((rows.enum.map fun nr => ((nr.1 : Int), ((nr.2.1 : ℚ) :: nr.2.2))).map
            fun r => r.2.getD 6 0).map toordinal)⟩ : DFrame).getCol "date"
        = some (((rows.enum.map fun nr => ((nr.1 : Int), ((nr.2.1 : ℚ) :: nr.2.2))).zipWith
            (fun r v => (r.1, r.2 ++ [v]))
            (((rows.enum.map fun nr => ((nr.1 : Int), ((nr.2.1 : ℚ) :: nr.2.2))).map
              fun r => r.2.getD 6 0).map toordinal)).map fun r => r.2.getD 7 0) := by
      simp only [DFrame.getCol]
      rw [if_pos hmemD7]
      simp only [List.indexOf_cons_ne _ hIdx1]
      rfl
    rw [hgetdate]
    refine congrArg some ?_
    rw [List.map_map, List.zipWith_map_right, List.zipWith_same, List.map_map]
    exact pion_date_cells rows 0 hlen

/-- Witness for C5 at a concrete two-row mode-B frame. -/
theorem pion_mode_normalization_witness :
    (("index" : String) ≠ "date" ∧ ("index" : String) ≠ "event_date"
        ∧ ∀ r ∈ rows5, r.2.length = 6)
      ∧ ∃ out, prep_plot_data
            ⟨"index", ["open", "high", "low", "close", "volume", "event_date"], rows5⟩
            (none, none) (some "pion") = some out
          ∧ out.colNames
              = "index" :: ["Open", "High", "Low", "Close", "Volume", "event_date", "date"]
          ∧ out.getCol "date" = some (rows5.map fun r => toordinal (r.2.getD 5 0)) :=
  ⟨⟨by decide, by decide, by decide⟩,
    pion_mode_normalization "index" rows5 (by decide) (by decide) (by decide)⟩

/-- Reading below a freshly set cell is unaffected by the write. -/
theorem getElem?_set_lt {α : Type} (l : List α) (i r : Nat) (v : α) (hir : r < i) :
    (l.set i v)[r]? = l[r]? :=
  List.getElem?_set_ne (Nat.ne_of_gt hir)

/-- Reading inside the original heap segment ignores two fresh allocations. -/
theorem getElem?_heap2 {α : Type} (l : List α) (r : Nat) (a b : α) (hr : r < l.length) :
    ((l ++ [a]) ++ [b])[r]? = l[r]? := by
  rw [List.getElem?_append_left (by simp; omega), List.getElem?_append_left hr]

/-- `getD` at the index of a freshly appended element. -/
theorem getD_concat_length {α : Type} (l : List α) (a dflt : α) :
    (l ++ [a]).getD l.length dflt = a := by
  rw [List.getD_eq_getElem?_getD, List.getElem?_concat_length]
  rfl

/-- `getD` at the index of the second of two freshly appended elements. -/
theorem getD_append2 {α : Type} (l : List α) (a b dflt : α) :
    ((l ++ [a]) ++ [b]).getD (l.length + 1) dflt = b := by
  rw [List.getD_eq_getElem?_getD,
    show l.length + 1 = (l ++ [a]).length from by simp,
    List.getElem?_concat_length]
  rfl

/-- `getD` at a freshly written cell returns the written value. -/
theorem getD_set_eq {α : Type} (l : List α) (i : Nat) (v dflt : α) (h : i < l.length) :
    (l.set i v).getD i dflt = v := by
  rw [List.getD_eq_getElem?_getD, List.getElem?_set_self h]
  rfl

/-- Write-then-read at the second fresh allocation. -/
theorem getD_set_append2 {α : Type} (l : List α) (a b v dflt : α) :
    (((l ++ [a]) ++ [b]).set (l.length + 1) v).getD (l.length + 1) dflt = v :=
  getD_set_eq _ _ _ _ (by simp)

/-- Write-write-then-read at the second fresh allocation. -/
theorem getD_set2_append2 {α : Type} (l : List α) (a b v w dflt : α) :
    ((((l ++ [a]) ++ [b]).set (l.length + 1) v).set (l.length + 1) w).getD
        (l.length + 1) dflt = w :=
  getD_set_eq _ _ _ _ (by simp)

/-- C9: neither pipeline mutates the caller's frame.  In the heap model,
`prep_plot_data` leaves the frame at the caller's reference untouched (it
works on the deep copy, which ends up holding exactly the pure
`prep_plot_data` result), and `intraday.plot` builds its normalized table in
a fresh frame produced by `resample`, leaving the original untouched. -/
theorem pipelines_preserve_caller_frame :
    (∀ (h : List DFrame) (r : Nat) (se : Option Int × Option Int)
        (mode : Option String) (h' : List DFrame) (d : Nat),
      r < h.length → prep_plot_data_heap h r se mode = some (h', d) →
        h'[r]? = h[r]?
          ∧ ∃ out, prep_plot_data (h.getD r dfrEmpty) se mode = some out
              ∧ h'[d]? = some out)
    ∧ (∀ (h : List IFrame) (r : Nat) (bsize : String) (h' : List IFrame) (d : Nat),
      r < h.length → plot_heap h r bsize = some (h', d) → h'[r]? = h[r]?) := by
  constructor
  · intro h r se mode h' d hr hE
    simp only [prep_plot_data_heap] at hE
    split at hE
    · exact Option.noConfusion hE
    · rename_i m hres
      split at hE
      · rename_i hpan
        have hnp : ¬m = "pion" := by rw [hpan]; decide
        simp only [if_neg hnp, getD_concat_length, getD_append2, getD_set_append2] at hE
        split at hE
        · rename_i vs heq
          injection (Option.some.inj hE) with hh' hd
          subst hh'
          subst hd
          refine ⟨?_, ?_⟩
          · rw [getElem?_set_lt _ _ _ _ (Nat.lt_succ_of_lt hr),
              getElem?_set_lt _ _ _ _ (Nat.lt_succ_of_lt hr),
              getElem?_heap2 _ _ _ _ hr]
          · have hpure : prep_plot_data (h.getD r dfrEmpty) se mode
                = some ((((h.getD r dfrEmpty).truncate se.1 se.2).resetIndex).setCol
                    "date" (vs.map date2num)) := by
              simp only [prep_plot_data, hres, if_pos hpan, if_neg hnp, heq]
            exact ⟨_, hpure, by rw [List.getElem?_set_self (by simp)]⟩
        · exact Option.noConfusion hE
      · rename_i hnpan
        split at hE
        · rename_i hpion
          simp only [getD_concat_length, getD_append2, getD_set_append2,
            getD_set2_append2] at hE
          split at hE
          · rename_i vs heq
            injection (Option.some.inj hE) with hh' hd
            subst hh'
            subst hd
            refine ⟨?_, ?_⟩
            · rw [getElem?_set_lt _ _ _ _ (Nat.lt_succ_of_lt hr),
                getElem?_set_lt _ _ _ _ (Nat.lt_succ_of_lt hr),
                getElem?_set_lt _ _ _ _ (Nat.lt_succ_of_lt hr),
                getElem?_heap2 _ _ _ _ hr]
            · have hpure : prep_plot_data (h.getD r dfrEmpty) se mode
                  = some (((((h.getD r dfrEmpty).truncate se.1 se.2).renameCols
                      pion_renames).resetIndex).setCol "date" (vs.map toordinal)) := by
                simp only [prep_plot_data, hres, if_neg hnpan, if_pos hpion, heq]
              exact ⟨_, hpure, by rw [List.getElem?_set_self (by simp)]⟩
          · exact Option.noConfusion hE
        · exact Option.noConfusion hE
  · intro h r bsize h' d hr hE
    simp only [plot_heap] at hE
    split at hE
    · exact Option.noConfusion hE
    · rename_i m hm
      split at hE
      · exact Option.noConfusion hE
      · rename_i p hp
        injection (Option.some.inj hE) with hh' hd
        subst hh'
        rw [getElem?_set_lt _ _ _ _ hr, List.getElem?_append_left hr]

/-- Witness for C9: running both heap pipelines on concrete one-frame heaps
leaves the caller's frame byte-for-byte unchanged. -/
theorem pipelines_preserve_caller_frame_witness :
    ((prep_plot_data_heap [df0] 0 (none, none) (some "pandas")).map
        (fun p => (p.1)[0]?) = some (some df0))
    ∧ ((plot_heap [⟨rows0, none⟩] 0 "5Min").map (fun p => (p.1)[0]?)
        = some (some (⟨rows0, none⟩ : IFrame))) := by
  constructor
  · cases hE : prep_plot_data_heap [df0] 0 (none, none) (some "pandas") with
    | none => exact absurd hE (by decide)
    | some p =>
      have h1 := (pipelines_preserve_caller_frame.1 [df0] 0 (none, none)
        (some "pandas") p.1 p.2 (by decide) (by rw [hE])).1
      show some ((p.1)[0]?) = some (some df0)
      rw [h1]
      rfl
  · cases hE : plot_heap [⟨rows0, none⟩] 0 "5Min" with
    | none => exact absurd hE (by decide)
    | some p =>
      have h1 := pipelines_preserve_caller_frame.2 [⟨rows0, none⟩] 0 "5Min"
        p.1 p.2 (by decide) (by rw [hE])
      show some ((p.1)[0]?) = some (some (⟨rows0, none⟩ : IFrame))
      rw [h1]
      rfl
